import Mathlib

/-!
# Verification of the per-environment plugin container and crawl-end finder

Shallow embedding of `packages/vite/src/node/server/environment.ts` and
`packages/vite/src/node/server/pluginContainer.ts`, with theorems settling the
frozen claims about hook ordering, short-circuiting, source-map chaining,
closed-server errors, HMR invalidation, and crawl-end detection.

The JavaScript event loop is single-threaded and cooperative; asynchronous
interleavings are modelled as explicit event sequences applied to an explicit
state, one state-transition per synchronously executed function body.
-/

namespace Vite

/-! ## CrawlEndFinder (environment.ts, `setupOnCrawlEnd`)

State of the closure created by `setupOnCrawlEnd`: the two id sets, the
one-shot deferred (`resolved` records whether `onCrawlEndPromiseWithResolvers`
has been resolved), the `cancelled` and `crawlEndCalled` flags, and whether a
debounce timeout is currently scheduled (`timerSet`; `clearTimeout` followed
by `setTimeout` keeps it scheduled, so a `Bool` captures it). -/

structure CrawlState where
  seenIds : List String
  registeredIds : List String
  cancelled : Bool
  crawlEndCalled : Bool
  resolved : Bool
  timerSet : Bool
deriving Repr, DecidableEq

def CrawlState.init : CrawlState :=
  { seenIds := [], registeredIds := [], cancelled := false,
    crawlEndCalled := false, resolved := false, timerSet := false }

/-- `callOnCrawlEnd`: guarded one-shot invocation of the `onCrawlEnd`
callback, then unconditional resolution of the deferred. The returned `Nat`
counts how many times the callback was invoked (0 or 1). -/
def callOnCrawlEnd (s : CrawlState) : CrawlState × Nat :=
  if !s.cancelled && !s.crawlEndCalled then
    ({ s with crawlEndCalled := true, resolved := true }, 1)
  else
    ({ s with resolved := true }, 0)

/-- `checkIfCrawlEndAfterTimeout`: if not cancelled and no ids remain
registered, (re)start the 50 ms debounce timer. -/
def checkIfCrawlEndAfterTimeout (s : CrawlState) : CrawlState :=
  if s.cancelled || !s.registeredIds.isEmpty then s
  else { s with timerSet := true }

/-- `markIdAsDone`: remove a registered id and re-check for idleness. -/
def markIdAsDone (id : String) (s : CrawlState) : CrawlState :=
  if s.registeredIds.contains id then
    checkIfCrawlEndAfterTimeout { s with registeredIds := s.registeredIds.erase id }
  else s

/-- `registerRequestProcessing`: the synchronous part — an unseen id is added
to both sets and its `done` thunk is invoked (returned as the list of ids
whose `done` was called; the asynchronous settling that triggers
`markIdAsDone` is a separate `CrawlEv.settle` event). -/
def registerRequestProcessing (id : String) (s : CrawlState) :
    CrawlState × List String :=
  if !s.seenIds.contains id then
    ({ s with seenIds := id :: s.seenIds, registeredIds := id :: s.registeredIds }, [id])
  else (s, [])

/-- `waitForRequestsIdle`: a truthy `ignoredId` (present and non-empty, per JS
truthiness) is added to `seenIds` and marked done; the deferred's promise is
returned (no state effect of its own). -/
def waitForRequestsIdle (ignoredId : Option String) (s : CrawlState) : CrawlState :=
  match ignoredId with
  | some id => if id.isEmpty then s else markIdAsDone id { s with seenIds := id :: s.seenIds }
  | none => s

/-- `callOnCrawlEndWhenIdle`: the debounce timer body. -/
def callOnCrawlEndWhenIdle (s : CrawlState) : CrawlState × Nat :=
  if s.cancelled || !s.registeredIds.isEmpty then (s, 0)
  else callOnCrawlEnd s

/-- A scheduled timeout firing: consumes the pending timer and runs
`callOnCrawlEndWhenIdle`. -/
def fireTimer (s : CrawlState) : CrawlState × Nat :=
  if s.timerSet then callOnCrawlEndWhenIdle { s with timerSet := false }
  else (s, 0)

/-- `cancel` -/
def cancelCrawl (s : CrawlState) : CrawlState := { s with cancelled := true }

/-- The externally observable events that can reach the finder: a
`registerRequestProcessing` call, the settling of a registered id's `done`
promise (which runs `markIdAsDone`), a `waitForRequestsIdle` call, a debounce
timer firing, and `cancel`. -/
inductive CrawlEv where
  | register (id : String)
  | settle (id : String)
  | waitIdle (ignoredId : Option String)
  | timerFire
  | cancel
deriving Repr, DecidableEq

/-- Observable output of one event: number of `onCrawlEnd` callback
invocations and the ids whose `done` thunk was invoked. -/
structure CrawlOut where
  cbCalls : Nat
  doneInvoked : List String
deriving Repr, DecidableEq

def CrawlOut.nil : CrawlOut := { cbCalls := 0, doneInvoked := [] }

def crawlStep (s : CrawlState) : CrawlEv → CrawlState × CrawlOut
  | .register id =>
    let r := registerRequestProcessing id s
    (r.1, { cbCalls := 0, doneInvoked := r.2 })
  | .settle id => (markIdAsDone id s, CrawlOut.nil)
  | .waitIdle ignoredId => (waitForRequestsIdle ignoredId s, CrawlOut.nil)
  | .timerFire =>
    let r := fireTimer s
    (r.1, { cbCalls := r.2, doneInvoked := [] })
  | .cancel => (cancelCrawl s, CrawlOut.nil)

/-- Run a sequence of events, accumulating the total number of `onCrawlEnd`
callback invocations. -/
def crawlRun (s : CrawlState) : List CrawlEv → CrawlState × Nat
  | [] => (s, 0)
  | e :: es =>
    let r := crawlStep s e
    let rest := crawlRun r.1 es
    (rest.1, r.2.cbCalls + rest.2)

/-! ## HMR invalidation (environment.ts, `invalidateModule`)

Module nodes are the fields of `EnvironmentModuleNode` that `invalidateModule`
reads or writes. The graph is the `urlToModuleMap`, modelled as an association
list keyed by URL (node objects are taken to be bound under a single URL, so
mutating the node in place corresponds to updating its binding). `updateModules`
and `getShortName` live in `./hmr.ts`, which is not part of the container; the
call is recorded as an observable action, with `getShortName` a parameter. -/

structure ModuleNode where
  isSelfAccepting : Bool
  lastHMRTimestamp : Nat
  lastHMRInvalidationReceived : Bool
  file : String
  importers : List String
deriving Repr, DecidableEq

structure ModuleGraph where
  urlToModuleMap : List (String × ModuleNode)
deriving Repr, DecidableEq

def lookupUrl (url : String) : List (String × ModuleNode) → Option ModuleNode
  | [] => none
  | kv :: rest => if kv.1 == url then some kv.2 else lookupUrl url rest

def ModuleGraph.get (g : ModuleGraph) (url : String) : Option ModuleNode :=
  lookupUrl url g.urlToModuleMap

def setUrl (url : String) (n : ModuleNode) :
    List (String × ModuleNode) → List (String × ModuleNode)
  | [] => []
  | kv :: rest =>
    if kv.1 == url then (kv.1, n) :: setUrl url n rest
    else kv :: setUrl url n rest

/-- Replace the binding of `url` (all bindings of that key; a well-formed map
has at most one). -/
def ModuleGraph.set (g : ModuleGraph) (url : String) (n : ModuleNode) : ModuleGraph :=
  { urlToModuleMap := setUrl url n g.urlToModuleMap }

/-- Observable side effects of `invalidateModule`: the yellow log line and the
`updateModules` call (the latter carries `getShortName(mod.file, root)`, the
spread importers, the module's `lastHMRTimestamp` and the invalidation flag). -/
inductive HmrAction where
  | logInvalidate (path : String) (message : Option String)
  | updateModules (file : String) (importers : List String) (timestamp : Nat)
      (isHmrInvalidate : Bool)
deriving Repr, DecidableEq

/-- `invalidateModule(environment, m)`: look the module up by URL; when it is
self-accepting, has a positive last HMR timestamp and has not already received
an invalidation, mark it received, log once, and call `updateModules` once. -/
def invalidateModule (getShortName : String → String → String) (root : String)
    (g : ModuleGraph) (path : String) (message : Option String) :
    ModuleGraph × List HmrAction :=
  match g.get path with
  | some m =>
    if m.isSelfAccepting && decide (0 < m.lastHMRTimestamp)
        && !m.lastHMRInvalidationReceived then
      (g.set path { m with lastHMRInvalidationReceived := true },
       [.logInvalidate path message,
        .updateModules (getShortName m.file root) m.importers m.lastHMRTimestamp true])
    else (g, [])
  | none => (g, [])

/-! ## Source maps (pluginContainer.ts, `TransformContext`)

A JavaScript source-map value as inspected by `_getCombinedSourcemap`: whether
the `version` key is present, the `mappings` string, and the `sources` /
`sourcesContent` arrays (entries may be `null`/`undefined`, hence `Option`).
The sentinel is the version-less `\x7bmappings: ''\x7d` object. Chain members
that are JSON strings are parsed with `JSON.parse` before inspection; the
model works on the parsed values. -/

structure JSMap where
  hasVersion : Bool
  mappings : String
  sources : List (Option String)
  sourcesContent : List (Option String)
deriving Repr, DecidableEq, Inhabited

def sentinelMap : JSMap :=
  { hasVersion := false, mappings := "", sources := [], sourcesContent := [] }

def JSMap.isSentinel (m : JSMap) : Bool := !m.hasVersion && m.mappings == ""

/-- JS falsiness of a `sources` entry (`null`, `undefined`, or `""`). -/
def falsySource : Option String → Bool
  | none => true
  | some s => s.isEmpty

/-- External utilities the container imports from `../utils`,
`../../shared/utils` and `node:path` (none of which are under `src/`); the
development is parametric in them. -/
structure Externals where
  normalizePath : String → String
  isExternalUrl : String → Bool
  cleanUrl : String → String
  combineSourcemaps : String → JSMap → JSMap → JSMap
  joinPath : String → String → String

/-- The mutable fields of `TransformContext` that the source-map machinery
touches. -/
structure TransformCtxState where
  filename : String
  originalCode : String
  sourcemapChain : List JSMap
  combinedMap : Option JSMap
deriving Repr, DecidableEq

/-- `TransformContext` constructor: `inMap`, when truthy, seeds the chain. -/
def TransformCtxState.init (id code : String) (inMap : Option JSMap) :
    TransformCtxState :=
  { filename := id, originalCode := code,
    sourcemapChain := match inMap with | some m => [m] | none => [],
    combinedMap := none }

/-- The special case applied when a versioned map becomes the first
accumulated map: `sources: ['']` or `sources: [null]` is rewritten to point
at the current filename with `sourcesContent` set to the original code. -/
def initialChainMap (filename originalCode : String) (m : JSMap) : JSMap :=
  match m.sources with
  | [s0] =>
    if falsySource s0 then
      { m with sources := [some filename], sourcesContent := [some originalCode] }
    else m
  | _ => m

/-- The `for (let m of this.sourcemapChain)` loop of `_getCombinedSourcemap`.
Returns the final value of the local `combinedMap` variable together with
whether any assignment to it happened (used to model the object-identity test
`combinedMap !== this.combinedMap` at the end: every assignment in the loop
produces an object distinct from the stored one, while a final `null` is
identical to a stored `null`). -/
def collapseChain (combine : String → JSMap → JSMap → JSMap)
    (cleanedFilename filename originalCode : String) :
    Option JSMap → List JSMap → Option JSMap × Bool
  | cm, [] => (cm, false)
  | cm, m :: rest =>
    if !m.hasVersion then
      if m.mappings == "" then (some sentinelMap, true)
      else (none, true)
    else
      let cm' : Option JSMap :=
        match cm with
        | none => some (initialChainMap filename originalCode m)
        | some c => some (combine cleanedFilename m c)
      ((collapseChain combine cleanedFilename filename originalCode cm' rest).1, true)

/-- `TransformContext._getCombinedSourcemap`: early-return when the stored map
is the sentinel; otherwise run the collapse loop and, when the resulting value
differs from the stored one (object identity), store it and empty the chain. -/
def getCombinedSourcemapInternal (ext : Externals) (ctx : TransformCtxState) :
    TransformCtxState × Option JSMap :=
  match ctx.combinedMap with
  | some cm =>
    if cm.isSentinel then ({ ctx with sourcemapChain := [] }, some cm)
    else
      let r := collapseChain ext.combineSourcemaps (ext.cleanUrl ctx.filename)
        ctx.filename ctx.originalCode ctx.combinedMap ctx.sourcemapChain
      let changed := r.2 && !(r.1.isNone && ctx.combinedMap.isNone)
      if changed then ({ ctx with combinedMap := r.1, sourcemapChain := [] }, r.1)
      else (ctx, ctx.combinedMap)
  | none =>
    let r := collapseChain ext.combineSourcemaps (ext.cleanUrl ctx.filename)
      ctx.filename ctx.originalCode ctx.combinedMap ctx.sourcemapChain
    let changed := r.2 && !(r.1.isNone && ctx.combinedMap.isNone)
    if changed then ({ ctx with combinedMap := r.1, sourcemapChain := [] }, r.1)
    else (ctx, ctx.combinedMap)

/-- Modelled from the spec: `new MagicString(code).generateMap(\x7bincludeContent:
true, hires: 'boundary', source\x7d)` — the magic-string library is not under
`src/`. Per spec §4.3/§8.6 it is a high-resolution (boundary-hires) identity
map over the original code with embedded content: one mapping segment per
boundary, so `mappings` is non-empty exactly when the code is non-empty. The
segment payload is schematic (one placeholder segment per character boundary
of the original code); the modelled structure is `sources`, `sourcesContent`,
the `version` key, and the non-emptiness of `mappings`. -/
def magicStringGenerateMap (code source : String) : JSMap :=
  { hasVersion := true
    mappings := String.mk (List.replicate code.length 'A')
    sources := [some source]
    sourcesContent := [some code] }

/-- `TransformContext.getCombinedSourcemap` (public): substitutes the
magic-string identity map when the combined map is missing or the empty
sentinel. -/
def getCombinedSourcemapPublic (ext : Externals) (ctx : TransformCtxState) :
    TransformCtxState × JSMap :=
  let r := getCombinedSourcemapInternal ext ctx
  match r.2 with
  | none => (r.1, magicStringGenerateMap r.1.originalCode (ext.cleanUrl r.1.filename))
  | some m =>
    if m.isSentinel then
      (r.1, magicStringGenerateMap r.1.originalCode (ext.cleanUrl r.1.filename))
    else (r.1, m)

/-! ## Plugins and hook sorting

A hook field is a bare function or `\x7bhandler, order?, sequential?\x7d`; a bare
function corresponds to `order := none`. Handlers are pure functions of their
arguments (hooks under test do not re-enter the container inside the modelled
runs). Plugins are identified by `name` where the source compares object
identities (`skip.has(plugin)`); plugin lists under consideration are assumed
to have distinguishing names where a theorem needs it. -/

inductive HookOrder where
  | pre
  | normal
  | post
deriving Repr, DecidableEq, BEq

structure HookWrap (H : Type) where
  handler : H
  order : Option HookOrder := none

structure ViteError where
  code : String
deriving Repr, DecidableEq

/-- `throwClosedServerError` throws an error with code `ERR_CLOSED_SERVER`. -/
def closedServerError : ViteError := { code := "ERR_CLOSED_SERVER" }

/-- The object form of a `resolveId` result (`PartialResolvedId`); `external`
stands for the Rollup passthrough fields merged by `Object.assign`. -/
structure ResolvedIdRecord where
  id : String
  external : Option Bool := none
deriving Repr, DecidableEq

inductive ResolveIdResult where
  | str (s : String)
  | obj (r : ResolvedIdRecord)
deriving Repr, DecidableEq

/-- The options object passed to a `resolveId` handler. -/
structure ResolveHookArgs where
  attributes : List (String × String)
  custom : Option String
  isEntry : Bool
  ssr : Bool
  scan : Bool
deriving Repr, DecidableEq

/-- Object form of a `load`/`transform` result. -/
structure SourceDescriptionObj where
  code : Option String := none
  map : Option JSMap := none
  meta : Option (List (String × String)) := none
deriving Repr, DecidableEq

inductive LoadResult where
  | str (code : String)
  | obj (o : SourceDescriptionObj)
deriving Repr, DecidableEq

structure LoadHookArgs where
  ssr : Bool
deriving Repr, DecidableEq

inductive TransformHookResult where
  | str (code : String)
  | obj (o : SourceDescriptionObj)
deriving Repr, DecidableEq

structure TransformHookArgs where
  ssr : Bool
deriving Repr, DecidableEq

structure Plugin where
  name : String
  resolveId : Option (HookWrap (String → String → ResolveHookArgs → Option ResolveIdResult)) := none
  load : Option (HookWrap (String → LoadHookArgs → Option LoadResult)) := none
  transform : Option (HookWrap (String → String → TransformHookArgs → Option TransformHookResult)) := none

def Plugin.resolveIdOrder (p : Plugin) : Option (Option HookOrder) :=
  p.resolveId.map (fun h => h.order)

def Plugin.loadOrder (p : Plugin) : Option (Option HookOrder) :=
  p.load.map (fun h => h.order)

def Plugin.transformOrder (p : Plugin) : Option (Option HookOrder) :=
  p.transform.map (fun h => h.order)

/-- Modelled from the spec: `createPluginHookUtils.getSortedPlugins`
(`../plugins/index.ts` is not under `src/`). Spec §4.1: for a given hook,
keep the plugins providing the hook, with `order === 'pre'` entries first,
then default-ordered entries, then `order === 'post'` entries, preserving
input order within each tier. `hookOf p = none` means the plugin lacks the
hook; `some o` is the extracted order. -/
def sortHookPlugins (hookOf : Plugin → Option (Option HookOrder))
    (plugins : List Plugin) : List Plugin :=
  let withHook := plugins.filter (fun p => (hookOf p).isSome)
  withHook.filter (fun p => hookOf p = some (some .pre)) ++
    withHook.filter (fun p => hookOf p = some none) ++
    withHook.filter (fun p => hookOf p = some (some .post))

/-- Container-level flags: project root, the backward-compatibility `ssr`
flag (`environment.name !== 'client'`), the `closed` flag, and the
environment's `dev.recoverable` option. -/
structure ContainerState where
  root : String
  ssr : Bool
  closed : Bool
  recoverable : Bool
deriving Repr, DecidableEq

/-! ## `container.resolveId` -/

/-- The `for (const plugin of getSortedPlugins('resolveId'))` loop. Returns
the `(id, partial)` accumulator of the first non-null result (the `break`),
paired with the names of the plugins whose handler was invoked, or raises
`closedServerError` when the per-iteration closed check fires. -/
def resolveIdLoop (cs : ContainerState) (skip : Option (List String))
    (rawId : String) (importer : String) (args : ResolveHookArgs) :
    List Plugin → Except ViteError (Option (String × ResolvedIdRecord) × List String)
  | [] => .ok (none, [])
  | p :: ps =>
    if cs.closed && cs.recoverable then .error closedServerError
    else
      match p.resolveId with
      | none => resolveIdLoop cs skip rawId importer args ps
      | some hook =>
        if (skip.getD []).contains p.name then
          resolveIdLoop cs skip rawId importer args ps
        else
          match hook.handler rawId importer args with
          | none =>
            (resolveIdLoop cs skip rawId importer args ps).map
              (fun r => (r.1, p.name :: r.2))
          | some (.str s) => .ok (some (s, { id := s }), [p.name])
          | some (.obj o) => .ok (some (o.id, o), [p.name])

/-- Options accepted by `container.resolveId`. -/
structure ResolveIdOptions where
  attributes : List (String × String) := []
  custom : Option String := none
  skip : Option (List String) := none
  scan : Bool := false
  isEntry : Bool := false
deriving Repr, DecidableEq

/-- `container.resolveId(rawId, importer = join(root, 'index.html'), options)`:
run the loop over the sorted plugins, then normalize the winning id (external
URLs kept as-is) — a falsy (empty) id yields `null`. The second component is
the invocation trace. -/
def resolveIdRun (cs : ContainerState) (ext : Externals) (plugins : List Plugin)
    (rawId : String) (importerOpt : Option String) (opts : ResolveIdOptions) :
    Except ViteError (Option ResolvedIdRecord × List String) :=
  let importer := importerOpt.getD (ext.joinPath cs.root "index.html")
  let args : ResolveHookArgs :=
    { attributes := opts.attributes, custom := opts.custom,
      isEntry := opts.isEntry, ssr := cs.ssr, scan := opts.scan }
  match resolveIdLoop cs opts.skip rawId importer args
      (sortHookPlugins Plugin.resolveIdOrder plugins) with
  | .error e => .error e
  | .ok (hit, visited) =>
    match hit with
    | some (id, acc) =>
      if id ≠ "" then
        .ok (some { acc with
          id := if ext.isExternalUrl id then id else ext.normalizePath id }, visited)
      else .ok (none, visited)
    | none => .ok (none, visited)

/-! ## `container.load` -/

/-- Module-info bookkeeping calls made by `container.load`
(`_updateModuleInfo` with the result and `_updateModuleLoadAddedImports`):
recorded as observable actions (the module graph itself is external to the
container). -/
inductive LoadAction where
  | updateModuleInfo (id : String) (meta : Option (List (String × String)))
  | updateLoadAddedImports (id : String)
deriving Repr, DecidableEq

/-- The `for (const plugin of getSortedPlugins('load'))` loop, including the
bookkeeping on the first non-null result and the trailing
`_updateModuleLoadAddedImports` when no plugin handled the load. -/
def loadLoop (cs : ContainerState) (id : String) (args : LoadHookArgs) :
    List Plugin → Except ViteError (Option LoadResult × List String × List LoadAction)
  | [] => .ok (none, [], [.updateLoadAddedImports id])
  | p :: ps =>
    if cs.closed && cs.recoverable then .error closedServerError
    else
      match p.load with
      | none => loadLoop cs id args ps
      | some hook =>
        match hook.handler id args with
        | none =>
          (loadLoop cs id args ps).map (fun r => (r.1, p.name :: r.2.1, r.2.2))
        | some res =>
          .ok (some res, [p.name],
            match res with
            | .obj o => [.updateModuleInfo id o.meta, .updateLoadAddedImports id]
            | .str _ => [.updateLoadAddedImports id])

/-- `container.load(id, options)`: merges `\x7bssr\x7d` into the options and runs
the loop over the sorted plugins. -/
def loadRun (cs : ContainerState) (plugins : List Plugin) (id : String) :
    Except ViteError (Option LoadResult × List String × List LoadAction) :=
  loadLoop cs id { ssr := cs.ssr } (sortHookPlugins Plugin.loadOrder plugins)

/-! ## `container.transform` -/

/-- The `for (const plugin of getSortedPlugins('transform'))` loop. Carries
the running `code` and the transform context; returns the final code, the
final context, the invocation trace, and the list of `_updateModuleInfo`
calls (the `meta` of each object result, in call order). -/
def transformLoop (cs : ContainerState) (id : String) (args : TransformHookArgs) :
    List Plugin → String → TransformCtxState →
    Except ViteError (String × TransformCtxState × List String × List (Option (List (String × String))))
  | [], code, ctx => .ok (code, ctx, [], [])
  | p :: ps, code, ctx =>
    if cs.closed && cs.recoverable then .error closedServerError
    else
      match p.transform with
      | none => transformLoop cs id args ps code ctx
      | some hook =>
        match hook.handler code id args with
        | none =>
          (transformLoop cs id args ps code ctx).map
            (fun r => (r.1, r.2.1, p.name :: r.2.2.1, r.2.2.2))
        | some (.str s) =>
          (transformLoop cs id args ps s ctx).map
            (fun r => (r.1, r.2.1, p.name :: r.2.2.1, r.2.2.2))
        | some (.obj o) =>
          let code' := match o.code with | some c => c | none => code
          let ctx' :=
            match o.code, o.map with
            | some _, some m =>
              { ctx with sourcemapChain := ctx.sourcemapChain ++ [m] }
            | _, _ => ctx
          (transformLoop cs id args ps code' ctx').map
            (fun r => (r.1, r.2.1, p.name :: r.2.2.1, o.meta :: r.2.2.2))

/-- `container.transform(code, id, options)`: construct the
`TransformContext`, run the loop, and return the final code together with
`ctx._getCombinedSourcemap()`. -/
def transformRun (cs : ContainerState) (ext : Externals) (plugins : List Plugin)
    (code id : String) (inMap : Option JSMap) :
    Except ViteError (String × Option JSMap × TransformCtxState × List String × List (Option (List (String × String)))) :=
  let ctx := TransformCtxState.init id code inMap
  match transformLoop cs id { ssr := cs.ssr }
      (sortHookPlugins Plugin.transformOrder plugins) code ctx with
  | .error e => .error e
  | .ok (code', ctx', visited, updates) =>
    let r := getCombinedSourcemapInternal ext ctx'
    .ok (code', r.2, r.1, visited, updates)

/-! ## `Context.resolve` (the `this.resolve` exposed to plugins) -/

structure CtxResolveOptions where
  attributes : List (String × String) := []
  custom : Option String := none
  isEntry : Bool := false
  skipSelf : Option Bool := none
deriving Repr, DecidableEq

/-- `Context.resolve(id, importer, options)`: unless `skipSelf === false`,
re-enter `container.resolveId` with a skip set holding the active plugin plus
the context's accumulated `_resolveSkips`; with `skipSelf: false` no skip set
is passed at all. -/
def contextResolve (cs : ContainerState) (ext : Externals) (plugins : List Plugin)
    (activePlugin : Option String) (resolveSkips : Option (List String))
    (scan : Bool) (id : String) (importer : Option String)
    (options : CtxResolveOptions) :
    Except ViteError (Option ResolvedIdRecord × List String) :=
  let skip : Option (List String) :=
    match activePlugin with
    | some p =>
      if options.skipSelf ≠ some false then some (p :: resolveSkips.getD [])
      else none
    | none => none
  resolveIdRun cs ext plugins id importer
    { attributes := options.attributes, custom := options.custom,
      isEntry := options.isEntry, skip := skip, scan := scan }

/-- Reference (spec-side) first-non-null fold: the visited prefix of a list
up to and including the first element on which `f` is non-null, together with
that first non-null value. -/
def specFirstNonNull {α β : Type} (f : α → Option β) : List α → List α × Option β
  | [] => ([], none)
  | a :: l =>
    match f a with
    | some b => ([a], some b)
    | none =>
      let r := specFirstNonNull f l
      (a :: r.1, r.2)

/-- Identity instantiation of the external utilities, used to evaluate the
model at concrete inputs. -/
def extId : Externals :=
  { normalizePath := fun s => s, isExternalUrl := fun _ => false,
    cleanUrl := fun s => s, combineSourcemaps := fun _ m _ => m,
    joinPath := fun a b => a ++ "/" ++ b }

/-- Evaluation of a plugin's `resolveId` handler at given call arguments
(`none` when the plugin lacks the hook or the handler returns null). -/
def evalResolveHook (rawId importer : String) (args : ResolveHookArgs)
    (p : Plugin) : Option ResolveIdResult :=
  match p.resolveId with
  | none => none
  | some hook => hook.handler rawId importer args

/-- A plugin participates in a `resolveId` run when it has the hook and is
not in the skip set. -/
def resolveEligible (skip : Option (List String)) (p : Plugin) : Bool :=
  p.resolveId.isSome && !((skip.getD []).contains p.name)

/-- Evaluation of a plugin's `load` handler at given call arguments. -/
def evalLoadHook (id : String) (args : LoadHookArgs) (p : Plugin) :
    Option LoadResult :=
  match p.load with
  | none => none
  | some hook => hook.handler id args

/-- The bookkeeping actions `container.load` performs on a result. -/
def loadHitActions (id : String) : Option LoadResult → List LoadAction
  | none => [.updateLoadAddedImports id]
  | some (.obj o) => [.updateModuleInfo id o.meta, .updateLoadAddedImports id]
  | some (.str _) => [.updateLoadAddedImports id]

/-- Spec-side reference fold for a chain whose members are all valid
(versioned) maps: merge left-to-right via `combineSourcemaps`, with the
`sources: [\"\"]` / `sources: [null]` rewrite applied when a map becomes the
first accumulated one. -/
def mergeChainSpec (combine : String → JSMap → JSMap → JSMap)
    (cleanedFilename filename originalCode : String) :
    Option JSMap → List JSMap → Option JSMap
  | cm, [] => cm
  | cm, m :: rest =>
    let cm' : Option JSMap :=
      match cm with
      | none => some (initialChainMap filename originalCode m)
      | some c => some (combine cleanedFilename m c)
    mergeChainSpec combine cleanedFilename filename originalCode cm' rest

/-! ## Theorems: crawl-end finder -/

/-- One event preserves the one-shot potential: callback invocations spend
the single unit held while `crawlEndCalled` is false. -/
theorem crawlStep_potential (s : CrawlState) (e : CrawlEv) :
    (crawlStep s e).2.cbCalls
        + (if (crawlStep s e).1.crawlEndCalled then 0 else 1)
      = if s.crawlEndCalled then 0 else 1 := by
  cases e with
  | register id =>
    simp only [crawlStep, registerRequestProcessing]
    split <;> simp
  | settle id =>
    simp only [crawlStep, markIdAsDone, checkIfCrawlEndAfterTimeout, CrawlOut.nil]
    split <;> [skip; simp] <;> split <;> simp
  | waitIdle ignoredId =>
    cases ignoredId with
    | none => simp [crawlStep, waitForRequestsIdle, CrawlOut.nil]
    | some id =>
      simp only [crawlStep, waitForRequestsIdle, markIdAsDone,
        checkIfCrawlEndAfterTimeout, CrawlOut.nil]
      split <;> [simp; skip]
      split <;> [skip; simp] <;> split <;> simp
  | timerFire =>
    simp only [crawlStep, fireTimer, callOnCrawlEndWhenIdle, callOnCrawlEnd]
    split <;> [skip; simp]
    split <;> [simp; skip]
    split <;> simp_all
  | cancel => simp [crawlStep, cancelCrawl, CrawlOut.nil]

theorem crawlRun_potential (evs : List CrawlEv) (s : CrawlState) :
    (crawlRun s evs).2 + (if (crawlRun s evs).1.crawlEndCalled then 0 else 1)
      = if s.crawlEndCalled then 0 else 1 := by
  induction evs generalizing s with
  | nil => simp [crawlRun]
  | cons e es ih =>
    have h1 := crawlStep_potential s e
    have h2 := ih (crawlStep s e).1
    simp only [crawlRun]
    rcases Bool.eq_false_or_eq_true s.crawlEndCalled with hc1 | hc1 <;>
      rcases Bool.eq_false_or_eq_true (crawlStep s e).1.crawlEndCalled with hc2 | hc2 <;>
        rcases Bool.eq_false_or_eq_true
            (crawlRun (crawlStep s e).1 es).1.crawlEndCalled with hc3 | hc3 <;>
          simp only [hc1, hc2, hc3, if_true, if_false] at h1 h2 ⊢ <;> omega

/-- C7: over the finder's whole lifetime (any event sequence from the initial
state), the `onCrawlEnd` callback is invoked at most once, however often the
registered set empties and the debounce fires. -/
theorem crawlEnd_callback_at_most_once (evs : List CrawlEv) :
    (crawlRun CrawlState.init evs).2 ≤ 1 := by
  have h := crawlRun_potential evs CrawlState.init
  cases hc : (crawlRun CrawlState.init evs).1.crawlEndCalled <;>
    simp_all [CrawlState.init] <;> omega

/-- Once `cancelled` is set, a single event neither invokes the callback nor
resolves the deferred, and leaves `cancelled` set. -/
theorem crawlStep_cancelled_frozen (s : CrawlState) (e : CrawlEv)
    (h : s.cancelled = true) :
    (crawlStep s e).1.cancelled = true ∧ (crawlStep s e).2.cbCalls = 0 ∧
      (crawlStep s e).1.resolved = s.resolved := by
  cases e with
  | register id =>
    simp only [crawlStep, registerRequestProcessing]
    split <;> simp [h]
  | settle id =>
    simp only [crawlStep, markIdAsDone, checkIfCrawlEndAfterTimeout, CrawlOut.nil]
    split <;> simp [h]
  | waitIdle ignoredId =>
    cases ignoredId with
    | none => simp [crawlStep, waitForRequestsIdle, CrawlOut.nil, h]
    | some id =>
      simp only [crawlStep, waitForRequestsIdle, markIdAsDone,
        checkIfCrawlEndAfterTimeout, CrawlOut.nil]
      split <;> [simp [h]; skip]
      split <;> simp [h]
  | timerFire =>
    simp only [crawlStep, fireTimer, callOnCrawlEndWhenIdle, callOnCrawlEnd]
    split <;> simp [h]
  | cancel => simp [crawlStep, cancelCrawl, CrawlOut.nil, h]

/-- C8 (amended): after `cancel()` every subsequent fire is suppressed — no
event sequence invokes the callback — and the deferred is never resolved by
later events (its resolved flag stays whatever it was at cancellation time);
callers must use `Promise.allSettled`. -/
theorem crawl_cancel_suppresses (s : CrawlState) (evs : List CrawlEv)
    (h : s.cancelled = true) :
    (crawlRun s evs).2 = 0 ∧ (crawlRun s evs).1.resolved = s.resolved := by
  induction evs generalizing s with
  | nil => simp [crawlRun]
  | cons e es ih =>
    obtain ⟨hcanc, hcb, hres⟩ := crawlStep_cancelled_frozen s e h
    obtain ⟨ihcb, ihres⟩ := ih (crawlStep s e).1 hcanc
    simp only [crawlRun]
    exact ⟨by omega, by rw [ihres, hres]⟩

/-- C8 witness: concrete cancelled state, concrete events. -/
theorem crawl_cancel_suppresses_witness :
    ((⟨["a"], [], true, false, false, true⟩ : CrawlState).cancelled = true) ∧
      (crawlRun (⟨["a"], [], true, false, false, true⟩ : CrawlState)
        [.timerFire, .register "b", .settle "b"]).2 = 0 := by
  refine ⟨rfl, ?_⟩
  exact (crawl_cancel_suppresses (⟨["a"], [], true, false, false, true⟩ : CrawlState)
    [.timerFire, .register "b", .settle "b"] rfl).1

/-- C8 counterexample to the claim as stated: an id is registered and
settles, the debounce is scheduled, `cancel()` arrives, then the timer fires
at the moment the callback would have fired — yet the deferred does not
resolve (and the callback does not run). The claim asserted the deferred
still resolves at that moment. -/
theorem crawl_cancel_deferred_not_resolved :
    ((crawlRun CrawlState.init
        [.register "a", .settle "a", .cancel, .timerFire]).1.resolved = false) ∧
      ((crawlRun CrawlState.init
        [.register "a", .settle "a", .cancel, .timerFire]).2 = 0) := by
  constructor <;> rfl

/-- Seen-set membership is preserved by every event. -/
theorem crawlStep_seen_mono (s : CrawlState) (e : CrawlEv) (id : String)
    (h : id ∈ s.seenIds) : id ∈ (crawlStep s e).1.seenIds := by
  cases e with
  | register i =>
    simp only [crawlStep, registerRequestProcessing]
    split <;> simp_all [List.mem_cons]
  | settle i =>
    simp only [crawlStep, markIdAsDone, checkIfCrawlEndAfterTimeout]
    split <;> (try split) <;> simp_all
  | waitIdle ig =>
    cases ig with
    | none => exact h
    | some i =>
      simp only [crawlStep, waitForRequestsIdle, markIdAsDone,
        checkIfCrawlEndAfterTimeout]
      split <;> (try split) <;> (try split) <;> simp_all [List.mem_cons]
  | timerFire =>
    simp only [crawlStep, fireTimer, callOnCrawlEndWhenIdle, callOnCrawlEnd]
    split <;> (try split) <;> (try split) <;> simp_all
  | cancel => simp_all [crawlStep, cancelCrawl]

theorem crawlRun_seen_mono (s : CrawlState) (evs : List CrawlEv) (id : String)
    (h : id ∈ s.seenIds) : id ∈ (crawlRun s evs).1.seenIds := by
  induction evs generalizing s with
  | nil => exact h
  | cons e es ih => exact ih (crawlStep s e).1 (crawlStep_seen_mono s e id h)

/-- C10: (1) `waitForRequestsIdle` with a (truthy) `ignoredId` adds it to the
seen set; (2) membership in the seen set persists across every later event;
(3) `registerRequestProcessing` for an already-seen id is a complete no-op:
the state is unchanged, `done` is not invoked, and nothing is registered or
tracked. -/
theorem waitForRequestsIdle_ignoredId_blocks_register (s t : CrawlState)
    (id : String) (evs : List CrawlEv) (hid : id ≠ "") :
    id ∈ (waitForRequestsIdle (some id) s).seenIds ∧
      (id ∈ s.seenIds → id ∈ (crawlRun s evs).1.seenIds) ∧
      (id ∈ t.seenIds → crawlStep t (.register id) = (t, CrawlOut.nil)) := by
  refine ⟨?_, fun hmem => crawlRun_seen_mono s evs id hmem, fun hmem => ?_⟩
  · have hne : id.isEmpty = false := by
      cases h : id.isEmpty
      · rfl
      · exact absurd ((String.isEmpty_iff id).mp h) hid
    simp only [waitForRequestsIdle, markIdAsDone, checkIfCrawlEndAfterTimeout, hne]
    split <;> (try split) <;> (try split) <;> simp_all [List.mem_cons]
  · have hmem' : t.seenIds.contains id = true := List.elem_iff.mpr hmem
    simp only [crawlStep, registerRequestProcessing, hmem']
    rfl

/-- C10 witness: ignore `"a"` before it is registered, then replay events and
attempt to register it. -/
theorem waitForRequestsIdle_ignoredId_blocks_register_witness :
    ("a" : String) ≠ "" ∧
      "a" ∈ (waitForRequestsIdle (some "a") CrawlState.init).seenIds ∧
      ("a" ∈ (waitForRequestsIdle (some "a") CrawlState.init).seenIds →
        "a" ∈ (crawlRun (waitForRequestsIdle (some "a") CrawlState.init)
          [.register "b", .settle "b"]).1.seenIds) ∧
      ("a" ∈ (waitForRequestsIdle (some "a") CrawlState.init).seenIds →
        crawlStep (waitForRequestsIdle (some "a") CrawlState.init) (.register "a")
          = (waitForRequestsIdle (some "a") CrawlState.init, CrawlOut.nil)) := by
  have h := waitForRequestsIdle_ignoredId_blocks_register
    (waitForRequestsIdle (some "a") CrawlState.init)
    (waitForRequestsIdle (some "a") CrawlState.init) "a"
    [.register "b", .settle "b"] (by decide)
  have h0 := waitForRequestsIdle_ignoredId_blocks_register CrawlState.init
    (waitForRequestsIdle (some "a") CrawlState.init) "a"
    [.register "b", .settle "b"] (by decide)
  exact ⟨by decide, h0.1, fun hm => h.2.1 hm, fun hm => h.2.2 hm⟩

/-! ## Theorems: HMR invalidation -/

/-- Replacing an existing binding makes the new node the lookup result. -/
theorem ModuleGraph.get_set_self (l : List (String × ModuleNode)) (url : String)
    (n : ModuleNode) (h : (ModuleGraph.get ⟨l⟩ url).isSome = true) :
    (ModuleGraph.set ⟨l⟩ url n).get url = some n := by
  induction l with
  | nil => simp [ModuleGraph.get, lookupUrl] at h
  | cons kv rest ih =>
    rcases Bool.eq_false_or_eq_true (kv.1 == url) with hk | hk
    · simp [ModuleGraph.get, ModuleGraph.set, lookupUrl, setUrl, hk]
    · have h' : (ModuleGraph.get ⟨rest⟩ url).isSome = true := by
        simpa [ModuleGraph.get, lookupUrl, hk] using h
      simpa [ModuleGraph.get, ModuleGraph.set, lookupUrl, setUrl, hk] using ih h'

/-- C6: for an `hmr-invalidate` event with path `p`, the invalidation routine
runs — marking the module invalidated, producing exactly one log line and one
`updateModules` call on the module's importers with the module's
`lastHMRTimestamp` and the invalidation flag set — if and only if the module
found by URL is self-accepting, has a positive last HMR timestamp, and has
not already received an invalidation; otherwise (including when no module is
found) graph and output are untouched. Consequently a second identical event
for the same module with the same timestamp is a no-op. -/
theorem invalidateModule_runs_iff_guard (gsn : String → String → String)
    (root : String) (g : ModuleGraph) (path : String) (msg msg2 : Option String) :
    (∀ m, g.get path = some m →
      ((m.isSelfAccepting = true ∧ 0 < m.lastHMRTimestamp ∧
          m.lastHMRInvalidationReceived = false) →
        invalidateModule gsn root g path msg =
          (g.set path { m with lastHMRInvalidationReceived := true },
           [.logInvalidate path msg,
            .updateModules (gsn m.file root) m.importers m.lastHMRTimestamp true])) ∧
      (¬(m.isSelfAccepting = true ∧ 0 < m.lastHMRTimestamp ∧
          m.lastHMRInvalidationReceived = false) →
        invalidateModule gsn root g path msg = (g, [])) ∧
      ((m.isSelfAccepting = true ∧ 0 < m.lastHMRTimestamp ∧
          m.lastHMRInvalidationReceived = false) →
        invalidateModule gsn root (invalidateModule gsn root g path msg).1 path msg2
          = ((invalidateModule gsn root g path msg).1, []))) ∧
    (g.get path = none → invalidateModule gsn root g path msg = (g, [])) := by
  constructor
  · intro m hm
    refine ⟨fun ⟨h1, h2, h3⟩ => ?_, fun hng => ?_, fun ⟨h1, h2, h3⟩ => ?_⟩
    · simp [invalidateModule, hm, h1, h2, h3]
    · simp only [invalidateModule, hm]
      have hfalse : (m.isSelfAccepting && decide (0 < m.lastHMRTimestamp)
          && !m.lastHMRInvalidationReceived) = false := by
        rcases Bool.eq_false_or_eq_true m.isSelfAccepting with ha | ha <;>
          rcases Bool.eq_false_or_eq_true m.lastHMRInvalidationReceived with hb | hb <;>
            by_cases hc : 0 < m.lastHMRTimestamp <;>
              simp_all <;> exact absurd ⟨ha, hc, hb⟩ hng
      simp [hfalse]
    · have heq : invalidateModule gsn root g path msg =
          (g.set path { m with lastHMRInvalidationReceived := true },
           [.logInvalidate path msg,
            .updateModules (gsn m.file root) m.importers m.lastHMRTimestamp true]) := by
        simp [invalidateModule, hm, h1, h2, h3]
      rw [heq]
      have hget : (g.set path { m with lastHMRInvalidationReceived := true }).get path
          = some { m with lastHMRInvalidationReceived := true } := by
        rcases g with ⟨l⟩
        exact ModuleGraph.get_set_self l path _ (by simp [hm])
      simp [invalidateModule, hget]
  · intro hn
    simp [invalidateModule, hn]

/-- C6 witness: the spec's Scenario F module at `"/m.js"`. -/
theorem invalidateModule_runs_iff_guard_witness :
    (ModuleGraph.get ⟨[("/m.js", ⟨true, 100, false, "/m.js", ["i1"]⟩)]⟩ "/m.js"
        = some ⟨true, 100, false, "/m.js", ["i1"]⟩) ∧
      ((true = true ∧ 0 < 100 ∧ false = false) →
        invalidateModule (fun f _ => f) "/"
            ⟨[("/m.js", ⟨true, 100, false, "/m.js", ["i1"]⟩)]⟩ "/m.js" none =
          (ModuleGraph.set ⟨[("/m.js", ⟨true, 100, false, "/m.js", ["i1"]⟩)]⟩
              "/m.js" ⟨true, 100, true, "/m.js", ["i1"]⟩,
           [.logInvalidate "/m.js" none,
            .updateModules "/m.js" ["i1"] 100 true])) := by
  have h := (invalidateModule_runs_iff_guard (fun f _ => f) "/"
    ⟨[("/m.js", ⟨true, 100, false, "/m.js", ["i1"]⟩)]⟩ "/m.js" none none).1
    ⟨true, 100, false, "/m.js", ["i1"]⟩ (by rfl)
  exact ⟨rfl, fun hg => h.1 hg⟩

/-! ## Theorems: plugin container hooks -/

/-- Closed-form characterization of the `resolveId` plugin loop (when the
per-iteration closed check cannot fire): it is the first-non-null fold over
the eligible plugins, with the invocation trace being exactly the eligible
prefix up to and including the first hit. -/
theorem resolveIdLoop_spec (cs : ContainerState)
    (hco : (cs.closed && cs.recoverable) = false)
    (skip : Option (List String)) (rawId importer : String)
    (args : ResolveHookArgs) (ps : List Plugin) :
    resolveIdLoop cs skip rawId importer args ps =
      .ok (((specFirstNonNull (evalResolveHook rawId importer args)
              (ps.filter (resolveEligible skip))).2.map
             (fun res => match res with
               | .str s => (s, ({ id := s } : ResolvedIdRecord))
               | .obj o => (o.id, o)),
            (specFirstNonNull (evalResolveHook rawId importer args)
              (ps.filter (resolveEligible skip))).1.map Plugin.name)) := by
  induction ps with
  | nil => simp [resolveIdLoop, specFirstNonNull]
  | cons p ps ih =>
    simp only [resolveIdLoop, hco, Bool.false_eq_true, if_false]
    cases hr : p.resolveId with
    | none =>
      have he : resolveEligible skip p = false := by
        simp only [resolveEligible, hr, Option.isSome_none, Bool.false_and]
      simp only [List.filter_cons, he, Bool.false_eq_true, if_false]
      exact ih
    | some hook =>
      rcases Bool.eq_false_or_eq_true ((skip.getD []).contains p.name) with hs | hs
      · have he : resolveEligible skip p = false := by
          simp only [resolveEligible, hr, Option.isSome_some, Bool.true_and, hs,
            Bool.not_true]
        simp only [List.filter_cons, he, Bool.false_eq_true, if_false, hs, if_true]
        exact ih
      · have he : resolveEligible skip p = true := by
          simp only [resolveEligible, hr, Option.isSome_some, Bool.true_and, hs,
            Bool.not_false]
        simp only [List.filter_cons, he, if_true, hs, Bool.false_eq_true, if_false]
        have hev : evalResolveHook rawId importer args p
            = hook.handler rawId importer args := by
          simp only [evalResolveHook, hr]
        cases hh : hook.handler rawId importer args with
        | none =>
          rw [ih]
          simp only [specFirstNonNull, hev, hh]
          rfl
        | some res =>
          simp only [specFirstNonNull, hev, hh]
          cases res <;> rfl

/-- Closed-form characterization of the `load` plugin loop. -/
theorem loadLoop_spec (cs : ContainerState)
    (hco : (cs.closed && cs.recoverable) = false)
    (id : String) (args : LoadHookArgs) (ps : List Plugin) :
    loadLoop cs id args ps =
      .ok ((specFirstNonNull (evalLoadHook id args)
              (ps.filter (fun p => p.load.isSome))).2,
           (specFirstNonNull (evalLoadHook id args)
              (ps.filter (fun p => p.load.isSome))).1.map Plugin.name,
           loadHitActions id
             (specFirstNonNull (evalLoadHook id args)
               (ps.filter (fun p => p.load.isSome))).2) := by
  induction ps with
  | nil => simp [loadLoop, specFirstNonNull, loadHitActions]
  | cons p ps ih =>
    simp only [loadLoop, hco, Bool.false_eq_true, if_false]
    cases hr : p.load with
    | none =>
      simp only [List.filter_cons, hr, Option.isSome_none, Bool.false_eq_true,
        if_false]
      exact ih
    | some hook =>
      simp only [List.filter_cons, hr, Option.isSome_some, if_true]
      have hev : evalLoadHook id args p = hook.handler id args := by
        simp only [evalLoadHook, hr]
      cases hh : hook.handler id args with
      | none =>
        rw [ih]
        simp only [specFirstNonNull, hev, hh]
        rfl
      | some res =>
        simp only [specFirstNonNull, hev, hh]
        cases res <;> rfl

/-- Characterization of `container.resolveId` at the run level: the
invocation trace is the eligible sorted prefix up to the first hit, and a
fold without a hit yields null. -/
theorem resolveIdRun_spec (cs : ContainerState) (ext : Externals)
    (plugins : List Plugin) (rawId : String) (importerOpt : Option String)
    (opts : ResolveIdOptions)
    (hco : (cs.closed && cs.recoverable) = false) :
    ∀ res visited,
      resolveIdRun cs ext plugins rawId importerOpt opts = .ok (res, visited) →
        visited =
          (specFirstNonNull
            (evalResolveHook rawId (importerOpt.getD (ext.joinPath cs.root "index.html"))
              { attributes := opts.attributes, custom := opts.custom,
                isEntry := opts.isEntry, ssr := cs.ssr, scan := opts.scan })
            ((sortHookPlugins Plugin.resolveIdOrder plugins).filter
              (resolveEligible opts.skip))).1.map Plugin.name ∧
        ((specFirstNonNull
            (evalResolveHook rawId (importerOpt.getD (ext.joinPath cs.root "index.html"))
              { attributes := opts.attributes, custom := opts.custom,
                isEntry := opts.isEntry, ssr := cs.ssr, scan := opts.scan })
            ((sortHookPlugins Plugin.resolveIdOrder plugins).filter
              (resolveEligible opts.skip))).2 = none → res = none) := by
  intro res visited hrun
  rw [resolveIdRun, resolveIdLoop_spec cs hco] at hrun
  set r := specFirstNonNull
    (evalResolveHook rawId (importerOpt.getD (ext.joinPath cs.root "index.html"))
      { attributes := opts.attributes, custom := opts.custom,
        isEntry := opts.isEntry, ssr := cs.ssr, scan := opts.scan })
    ((sortHookPlugins Plugin.resolveIdOrder plugins).filter
      (resolveEligible opts.skip)) with hr
  cases hv : r.2 with
  | none =>
    rw [hv] at hrun
    simp only [Option.map_none'] at hrun
    cases hrun
    exact ⟨rfl, fun _ => rfl⟩
  | some v =>
    rw [hv] at hrun
    simp only [Option.map_some'] at hrun
    cases v with
    | str s =>
      rcases eq_or_ne s "" with hse | hse
      · rw [if_neg (fun h => h hse)] at hrun
        cases hrun
        exact ⟨rfl, fun hn => Option.noConfusion hn⟩
      · rw [if_pos hse] at hrun
        cases hrun
        exact ⟨rfl, fun hn => Option.noConfusion hn⟩
    | obj o =>
      rcases eq_or_ne o.id "" with hse | hse
      · rw [if_neg (fun h => h hse)] at hrun
        cases hrun
        exact ⟨rfl, fun hn => Option.noConfusion hn⟩
      · rw [if_pos hse] at hrun
        cases hrun
        exact ⟨rfl, fun hn => Option.noConfusion hn⟩

/-- Characterization of `container.load` at the run level. -/
theorem loadRun_spec (cs : ContainerState) (plugins : List Plugin) (id : String)
    (hco : (cs.closed && cs.recoverable) = false) :
    ∀ res visited acts,
      loadRun cs plugins id = .ok (res, visited, acts) →
        visited =
          (specFirstNonNull (evalLoadHook id { ssr := cs.ssr })
            ((sortHookPlugins Plugin.loadOrder plugins).filter
              (fun p => p.load.isSome))).1.map Plugin.name ∧
        ((specFirstNonNull (evalLoadHook id { ssr := cs.ssr })
            ((sortHookPlugins Plugin.loadOrder plugins).filter
              (fun p => p.load.isSome))).2 = none → res = none) := by
  intro res visited acts hrun
  rw [loadRun, loadLoop_spec cs hco] at hrun
  cases hrun
  exact ⟨rfl, fun hn => hn⟩

/-- C2: in `container.resolveId` and `container.load` (open container),
plugins are visited in sorted order — the invocation trace is exactly the
prefix of the sorted, eligible plugins up to and including the first one
returning a non-null result, so no later plugin's handler runs — and when no
plugin returns a non-null result the call returns null. -/
theorem resolveId_load_first_non_null (cs : ContainerState) (ext : Externals)
    (plugins : List Plugin) (rawId : String) (importerOpt : Option String)
    (opts : ResolveIdOptions) (id : String)
    (hco : (cs.closed && cs.recoverable) = false) :
    (∀ res visited,
      resolveIdRun cs ext plugins rawId importerOpt opts = .ok (res, visited) →
        visited =
          (specFirstNonNull
            (evalResolveHook rawId (importerOpt.getD (ext.joinPath cs.root "index.html"))
              { attributes := opts.attributes, custom := opts.custom,
                isEntry := opts.isEntry, ssr := cs.ssr, scan := opts.scan })
            ((sortHookPlugins Plugin.resolveIdOrder plugins).filter
              (resolveEligible opts.skip))).1.map Plugin.name ∧
        ((specFirstNonNull
            (evalResolveHook rawId (importerOpt.getD (ext.joinPath cs.root "index.html"))
              { attributes := opts.attributes, custom := opts.custom,
                isEntry := opts.isEntry, ssr := cs.ssr, scan := opts.scan })
            ((sortHookPlugins Plugin.resolveIdOrder plugins).filter
              (resolveEligible opts.skip))).2 = none → res = none)) ∧
    (∀ res visited acts,
      loadRun cs plugins id = .ok (res, visited, acts) →
        visited =
          (specFirstNonNull (evalLoadHook id { ssr := cs.ssr })
            ((sortHookPlugins Plugin.loadOrder plugins).filter
              (fun p => p.load.isSome))).1.map Plugin.name ∧
        ((specFirstNonNull (evalLoadHook id { ssr := cs.ssr })
            ((sortHookPlugins Plugin.loadOrder plugins).filter
              (fun p => p.load.isSome))).2 = none → res = none)) :=
  ⟨resolveIdRun_spec cs ext plugins rawId importerOpt opts hco,
   loadRun_spec cs plugins id hco⟩

/-- C2 witness: the spec's Scenario A — three plugins, the second wins, the
third is never visited. -/
theorem resolveId_load_first_non_null_witness :
    ((⟨"/", false, false, false⟩ : ContainerState).closed
        && (⟨"/", false, false, false⟩ : ContainerState).recoverable) = false ∧
      resolveIdRun ⟨"/", false, false, false⟩ extId
          [⟨"P1", some ⟨fun _ _ _ => none, none⟩, none, none⟩,
           ⟨"P2", some ⟨fun _ _ _ => some (.str "/abs/a.js"), none⟩, none, none⟩,
           ⟨"P3", some ⟨fun _ _ _ => some (.str "/abs/b.js"), none⟩, none, none⟩]
          "a" none ({} : ResolveIdOptions)
        = .ok (some { id := "/abs/a.js" }, ["P1", "P2"]) ∧
      (∀ res visited,
        resolveIdRun ⟨"/", false, false, false⟩ extId
            [⟨"P1", some ⟨fun _ _ _ => none, none⟩, none, none⟩,
             ⟨"P2", some ⟨fun _ _ _ => some (.str "/abs/a.js"), none⟩, none, none⟩,
             ⟨"P3", some ⟨fun _ _ _ => some (.str "/abs/b.js"), none⟩, none, none⟩]
            "a" none ({} : ResolveIdOptions) = .ok (res, visited) →
          visited = ["P1", "P2"]) := by
  refine ⟨rfl, rfl, fun res visited hrun => ?_⟩
  have h := (resolveId_load_first_non_null ⟨"/", false, false, false⟩ extId
    [⟨"P1", some ⟨fun _ _ _ => none, none⟩, none, none⟩,
     ⟨"P2", some ⟨fun _ _ _ => some (.str "/abs/a.js"), none⟩, none, none⟩,
     ⟨"P3", some ⟨fun _ _ _ => some (.str "/abs/b.js"), none⟩, none, none⟩]
    "a" none ({} : ResolveIdOptions) "x" rfl).1 res visited hrun
  rw [h.1]
  rfl

/-- With `recoverable` false the per-iteration closed check never fires, so
the `transform` loop ignores the closed flag. -/
theorem transformLoop_closed_off (cs : ContainerState)
    (hrec : cs.recoverable = false) (id : String) (args : TransformHookArgs)
    (ps : List Plugin) (code : String) (ctx : TransformCtxState) :
    transformLoop cs id args ps code ctx
      = transformLoop { cs with closed := false } id args ps code ctx := by
  induction ps generalizing code ctx with
  | nil => rfl
  | cons p ps ih =>
    simp only [hrec] at ih
    have hco1 : (cs.closed && cs.recoverable) = false := by
      rw [hrec, Bool.and_false]
    cases hp : p.transform with
    | none =>
      simp only [transformLoop, hco1, hrec, Bool.and_false, Bool.false_and,
        Bool.false_eq_true, if_false, hp]
      exact ih code ctx
    | some hook =>
      cases hh : hook.handler code id args with
      | none =>
        simp only [transformLoop, hco1, hrec, Bool.and_false, Bool.false_and,
          Bool.false_eq_true, if_false, hp, hh]
        rw [ih code ctx]
      | some res =>
        cases res with
        | str s =>
          simp only [transformLoop, hco1, hrec, Bool.and_false, Bool.false_and,
            Bool.false_eq_true, if_false, hp, hh]
          rw [ih s ctx]
        | obj o =>
          simp only [transformLoop, hco1, hrec, Bool.and_false, Bool.false_and,
            Bool.false_eq_true, if_false, hp, hh]
          rw [ih]

/-- C1 (amended): after `close()` has set the closed flag, the per-plugin
closed check in `resolveId`/`load`/`transform` raises the ClosedServer error
(code `ERR_CLOSED_SERVER`) precisely when the environment's `dev.recoverable`
option is true (the check fires before each plugin visit, so a call with at
least one plugin providing the hook raises); when `recoverable` is false the
calls proceed exactly as on an open container. The claim stated the opposite
polarity. -/
theorem closed_hooks_recoverable_polarity (cs : ContainerState) (ext : Externals)
    (plugins : List Plugin) (rawId : String) (importerOpt : Option String)
    (opts : ResolveIdOptions) (id code : String) (inMap : Option JSMap) :
    closedServerError.code = "ERR_CLOSED_SERVER" ∧
    (cs.recoverable = false →
      resolveIdRun cs ext plugins rawId importerOpt opts
          = resolveIdRun { cs with closed := false } ext plugins rawId importerOpt opts ∧
        loadRun cs plugins id = loadRun { cs with closed := false } plugins id ∧
        transformRun cs ext plugins code id inMap
          = transformRun { cs with closed := false } ext plugins code id inMap) ∧
    (cs.recoverable = true → cs.closed = true →
      (sortHookPlugins Plugin.resolveIdOrder plugins ≠ [] →
        resolveIdRun cs ext plugins rawId importerOpt opts = .error closedServerError) ∧
      (sortHookPlugins Plugin.loadOrder plugins ≠ [] →
        loadRun cs plugins id = .error closedServerError) ∧
      (sortHookPlugins Plugin.transformOrder plugins ≠ [] →
        transformRun cs ext plugins code id inMap = .error closedServerError)) := by
  refine ⟨rfl, fun hrec => ⟨?_, ?_, ?_⟩, fun hrec hcl => ⟨?_, ?_, ?_⟩⟩
  · have h1 : (cs.closed && cs.recoverable) = false := by
      rw [hrec, Bool.and_false]
    have h2 : (({ cs with closed := false } : ContainerState).closed
        && ({ cs with closed := false } : ContainerState).recoverable) = false := rfl
    simp only [resolveIdRun, resolveIdLoop_spec cs h1,
      resolveIdLoop_spec { cs with closed := false } h2]
  · have h1 : (cs.closed && cs.recoverable) = false := by
      rw [hrec, Bool.and_false]
    have h2 : (({ cs with closed := false } : ContainerState).closed
        && ({ cs with closed := false } : ContainerState).recoverable) = false := rfl
    simp only [loadRun, loadLoop_spec cs h1,
      loadLoop_spec { cs with closed := false } h2]
  · simp only [transformRun]
    rw [transformLoop_closed_off cs hrec]
  · intro hne
    rcases hl : sortHookPlugins Plugin.resolveIdOrder plugins with _ | ⟨p, ps⟩
    · exact absurd hl hne
    · simp only [resolveIdRun, hl, resolveIdLoop, hcl, hrec, Bool.and_self, if_true]
  · intro hne
    rcases hl : sortHookPlugins Plugin.loadOrder plugins with _ | ⟨p, ps⟩
    · exact absurd hl hne
    · simp only [loadRun, hl, loadLoop, hcl, hrec, Bool.and_self, if_true]
  · intro hne
    rcases hl : sortHookPlugins Plugin.transformOrder plugins with _ | ⟨p, ps⟩
    · exact absurd hl hne
    · simp only [transformRun, hl, transformLoop, hcl, hrec, Bool.and_self, if_true]

/-- C1 witness: a closed, non-recoverable container resolves as if open; a
closed, recoverable one raises ClosedServer. -/
theorem closed_hooks_recoverable_polarity_witness :
    ((⟨"/", false, true, false⟩ : ContainerState).recoverable = false →
      resolveIdRun ⟨"/", false, true, false⟩ extId
          [⟨"p1", some ⟨fun _ _ _ => some (.str "/abs/a.js"), none⟩, none, none⟩]
          "a" none ({} : ResolveIdOptions)
        = resolveIdRun ⟨"/", false, false, false⟩ extId
          [⟨"p1", some ⟨fun _ _ _ => some (.str "/abs/a.js"), none⟩, none, none⟩]
          "a" none ({} : ResolveIdOptions)) ∧
    ((⟨"/", false, true, true⟩ : ContainerState).recoverable = true →
      (⟨"/", false, true, true⟩ : ContainerState).closed = true →
      sortHookPlugins Plugin.resolveIdOrder
          [⟨"p1", some ⟨fun _ _ _ => some (.str "/abs/a.js"), none⟩, none, none⟩] ≠ [] →
      resolveIdRun ⟨"/", false, true, true⟩ extId
          [⟨"p1", some ⟨fun _ _ _ => some (.str "/abs/a.js"), none⟩, none, none⟩]
          "a" none ({} : ResolveIdOptions) = .error closedServerError) := by
  constructor
  · intro h
    exact ((closed_hooks_recoverable_polarity ⟨"/", false, true, false⟩ extId
      [⟨"p1", some ⟨fun _ _ _ => some (.str "/abs/a.js"), none⟩, none, none⟩]
      "a" none ({} : ResolveIdOptions) "x" "c" none).2.1 h).1
  · intro h1 h2 h3
    exact ((closed_hooks_recoverable_polarity ⟨"/", false, true, true⟩ extId
      [⟨"p1", some ⟨fun _ _ _ => some (.str "/abs/a.js"), none⟩, none, none⟩]
      "a" none ({} : ResolveIdOptions) "x" "c" none).2.2 h1 h2).1 h3

/-- C1 counterexample to the claim as stated: with the container closed and
`recoverable === false`, `resolveId` proceeds and returns the plugin's result
instead of raising ClosedServer; with `recoverable === true` it raises. -/
theorem closed_hooks_claim_counterexample :
    resolveIdRun ⟨"/", false, true, false⟩ extId
        [⟨"p1", some ⟨fun _ _ _ => some (.str "/abs/a.js"), none⟩, none, none⟩]
        "a" none ({} : ResolveIdOptions)
      = .ok (some { id := "/abs/a.js" }, ["p1"]) ∧
    resolveIdRun ⟨"/", false, true, true⟩ extId
        [⟨"p1", some ⟨fun _ _ _ => some (.str "/abs/a.js"), none⟩, none, none⟩]
        "a" none ({} : ResolveIdOptions)
      = .error closedServerError := by
  constructor <;> rfl

/-- Every plugin recorded in the first-non-null visitation prefix is a member
of the underlying list. -/
theorem specFirstNonNull_visited_sub {α β : Type} (f : α → Option β)
    (l : List α) (a : α) : a ∈ (specFirstNonNull f l).1 → a ∈ l := by
  induction l with
  | nil => intro h; simp [specFirstNonNull] at h
  | cons x l ih =>
    intro h
    cases hf : f x with
    | some b =>
      simp only [specFirstNonNull, hf] at h
      simp only [List.mem_singleton] at h
      exact h ▸ List.mem_cons_self x l
    | none =>
      simp only [specFirstNonNull, hf] at h
      rcases List.mem_cons.mp h with h1 | h2
      · exact h1 ▸ List.mem_cons_self x l
      · exact List.mem_cons_of_mem x (ih h2)

/-- An element reached after a prefix of null results is visited by the
first-non-null fold. -/
theorem specFirstNonNull_mem_append {α β : Type} (f : α → Option β)
    (l1 l2 : List α) (a : α) (h : ∀ x ∈ l1, f x = none) :
    a ∈ (specFirstNonNull f (l1 ++ a :: l2)).1 := by
  induction l1 with
  | nil =>
    cases hf : f a with
    | some b => simp [specFirstNonNull, hf]
    | none => simp [specFirstNonNull, hf]
  | cons x l1 ih =>
    have hx := h x (List.mem_cons_self x l1)
    simp only [List.cons_append, specFirstNonNull, hx]
    exact List.mem_cons_of_mem x (ih (fun y hy => h y (List.mem_cons_of_mem x hy)))

/-- C5: with an active plugin, `this.resolve` with `skipSelf` other than
`false` re-enters `container.resolveId` with a skip set holding the active
plugin plus all previously accumulated skips, so the calling plugin's own
`resolveId` hook is never invoked; with `skipSelf: false` no skip set is
passed at all, and the calling plugin's hook is invoked again whenever the
eligible plugins sorted before it all return null. -/
theorem contextResolve_skipSelf (cs : ContainerState) (ext : Externals)
    (plugins : List Plugin) (pname : String) (prevSkips : Option (List String))
    (scan : Bool) (id : String) (importerOpt : Option String)
    (options : CtxResolveOptions)
    (hco : (cs.closed && cs.recoverable) = false) :
    (options.skipSelf ≠ some false →
      contextResolve cs ext plugins (some pname) prevSkips scan id importerOpt options
          = resolveIdRun cs ext plugins id importerOpt
              { attributes := options.attributes, custom := options.custom,
                isEntry := options.isEntry,
                skip := some (pname :: prevSkips.getD []), scan := scan } ∧
      (∀ res visited,
        contextResolve cs ext plugins (some pname) prevSkips scan id importerOpt options
          = .ok (res, visited) → pname ∉ visited)) ∧
    (options.skipSelf = some false →
      contextResolve cs ext plugins (some pname) prevSkips scan id importerOpt options
          = resolveIdRun cs ext plugins id importerOpt
              { attributes := options.attributes, custom := options.custom,
                isEntry := options.isEntry, skip := none, scan := scan } ∧
      (∀ p l1 l2,
        ((sortHookPlugins Plugin.resolveIdOrder plugins).filter
            (resolveEligible none)) = l1 ++ p :: l2 →
        p.name = pname →
        (∀ q ∈ l1,
          evalResolveHook id (importerOpt.getD (ext.joinPath cs.root "index.html"))
            { attributes := options.attributes, custom := options.custom,
              isEntry := options.isEntry, ssr := cs.ssr, scan := scan } q
            = none) →
        ∀ res visited,
          contextResolve cs ext plugins (some pname) prevSkips scan id importerOpt options
            = .ok (res, visited) → pname ∈ visited)) := by
  constructor
  · intro hss
    have heq : contextResolve cs ext plugins (some pname) prevSkips scan id
          importerOpt options
        = resolveIdRun cs ext plugins id importerOpt
            { attributes := options.attributes, custom := options.custom,
              isEntry := options.isEntry,
              skip := some (pname :: prevSkips.getD []), scan := scan } := by
      simp only [contextResolve]
      rw [if_pos hss]
    refine ⟨heq, fun res visited hrun hmem => ?_⟩
    rw [heq] at hrun
    obtain ⟨hvis, -⟩ := resolveIdRun_spec cs ext plugins id importerOpt
      { attributes := options.attributes, custom := options.custom,
        isEntry := options.isEntry,
        skip := some (pname :: prevSkips.getD []), scan := scan } hco
      res visited hrun
    rw [hvis] at hmem
    rcases List.mem_map.mp hmem with ⟨q, hq, hqname⟩
    have hqe := specFirstNonNull_visited_sub _ _ _ hq
    have hfil := List.mem_filter.mp hqe
    have hel := hfil.2
    simp only [resolveEligible, Bool.and_eq_true, Bool.not_eq_true'] at hel
    have hcont : (pname :: prevSkips.getD []).contains pname = false := by
      have h2 := hel.2
      rw [hqname] at h2
      simpa using h2
    simp [List.contains_cons] at hcont
  · intro hss
    have heq : contextResolve cs ext plugins (some pname) prevSkips scan id
          importerOpt options
        = resolveIdRun cs ext plugins id importerOpt
            { attributes := options.attributes, custom := options.custom,
              isEntry := options.isEntry, skip := none, scan := scan } := by
      simp only [contextResolve]
      rw [if_neg (fun h => h hss)]
    refine ⟨heq, fun p l1 l2 hdecomp hpn hnone res visited hrun => ?_⟩
    rw [heq] at hrun
    obtain ⟨hvis, -⟩ := resolveIdRun_spec cs ext plugins id importerOpt
      { attributes := options.attributes, custom := options.custom,
        isEntry := options.isEntry, skip := none, scan := scan } hco
      res visited hrun
    rw [hvis]
    have hp : p ∈ (specFirstNonNull
        (evalResolveHook id (importerOpt.getD (ext.joinPath cs.root "index.html"))
          { attributes := options.attributes, custom := options.custom,
            isEntry := options.isEntry, ssr := cs.ssr, scan := scan })
        ((sortHookPlugins Plugin.resolveIdOrder plugins).filter
          (resolveEligible none))).1 := by
      rw [hdecomp]
      exact specFirstNonNull_mem_append _ l1 l2 p hnone
    exact List.mem_map.mpr ⟨p, hp, hpn⟩

/-- C5 witness: active plugin `A` among `[A, B]`; with the default
`skipSelf`, `A` is not visited (only `B` is); with `skipSelf: false`, `A` is
visited. -/
theorem contextResolve_skipSelf_witness :
    ("A" : String) ∉ (["B"] : List String) ∧
      ("A" : String) ∈ (["A"] : List String) := by
  constructor
  · exact ((contextResolve_skipSelf ⟨"/", false, false, false⟩ extId
      [⟨"A", some ⟨fun _ _ _ => some (.str "/self.js"), none⟩, none, none⟩,
       ⟨"B", some ⟨fun _ _ _ => some (.str "/b.js"), none⟩, none, none⟩]
      "A" none false "x" none ({} : CtxResolveOptions) rfl).1 (by decide)).2
      (some { id := "/b.js" }) ["B"] rfl
  · exact ((contextResolve_skipSelf ⟨"/", false, false, false⟩ extId
      [⟨"A", some ⟨fun _ _ _ => some (.str "/self.js"), none⟩, none, none⟩,
       ⟨"B", some ⟨fun _ _ _ => some (.str "/b.js"), none⟩, none, none⟩]
      "A" none false "x" none
      ({ skipSelf := some false } : CtxResolveOptions) rfl).2 rfl).2
      ⟨"A", some ⟨fun _ _ _ => some (.str "/self.js"), none⟩, none, none⟩
      []
      [⟨"B", some ⟨fun _ _ _ => some (.str "/b.js"), none⟩, none, none⟩]
      rfl rfl (fun q hq => absurd hq (List.not_mem_nil q))
      (some { id := "/self.js" }) ["A"] rfl

/-- C3 (amended): in the `transform` loop, a plugin whose hook returns an
object result `o` is handled as follows — the running code is replaced only
when `o.code !== undefined`; `o.map`, when present, is pushed onto the
source-map chain only in that same case (when `o.code` is undefined a present
map is NOT pushed — the push sits inside the `result.code !== undefined`
branch); and `_updateModuleInfo` is applied to the result (its `meta`)
unconditionally for every object result. The loop then continues with the
remaining plugins. -/
theorem transform_object_result (cs : ContainerState)
    (hco : (cs.closed && cs.recoverable) = false)
    (o : SourceDescriptionObj) (nm code id : String) (args : TransformHookArgs)
    (ctx : TransformCtxState) (ord : Option HookOrder) (ps : List Plugin) :
    transformLoop cs id args
        ({ name := nm,
           transform := some { handler := fun _ _ _ => some (.obj o),
                               order := ord } } :: ps)
        code ctx
      = (transformLoop cs id args ps
           (match o.code with | some c => c | none => code)
           (match o.code, o.map with
            | some _, some m =>
              { ctx with sourcemapChain := ctx.sourcemapChain ++ [m] }
            | _, _ => ctx)).map
          (fun r => (r.1, r.2.1, nm :: r.2.2.1, o.meta :: r.2.2.2)) := by
  simp only [transformLoop, hco, Bool.false_eq_true, if_false]

/-- C3 witness: a result with both `code` and `map` present pushes the map
and replaces the code; the meta update is recorded. -/
theorem transform_object_result_witness :
    (((⟨"/", false, false, false⟩ : ContainerState).closed
        && (⟨"/", false, false, false⟩ : ContainerState).recoverable) = false) ∧
      transformLoop ⟨"/", false, false, false⟩ "/f.js" ⟨false⟩
          [⟨"p1", none, none,
            some ⟨fun _ _ _ =>
              some (.obj ⟨some "y", some sentinelMap, some [("k", "v")]⟩),
              none⟩⟩]
          "x" (TransformCtxState.init "/f.js" "x" none)
        = .ok ("y", ⟨"/f.js", "x", [sentinelMap], none⟩, ["p1"],
            [some [("k", "v")]]) := by
  refine ⟨rfl, ?_⟩
  have h := transform_object_result ⟨"/", false, false, false⟩ rfl
    ⟨some "y", some sentinelMap, some [("k", "v")]⟩ "p1" "x" "/f.js" ⟨false⟩
    (TransformCtxState.init "/f.js" "x" none) none []
  rw [h]
  rfl

/-- C3 counterexample to the claim as stated: a transform hook returns
`\x7bcode: undefined, map: <a versioned map>\x7d`; the claim says the present map
is pushed onto the chain even when `code` is undefined, but the code leaves
the chain empty (and the final combined map is therefore null rather than
derived from the returned map). -/
theorem transform_map_not_pushed_counterexample :
    transformRun ⟨"/", false, false, false⟩ extId
        [⟨"p1", none, none,
          some ⟨fun _ _ _ =>
            some (.obj ⟨none, some ⟨true, "AAAA", [some "/f.js"], [some "x"]⟩,
              none⟩),
            none⟩⟩]
        "x" "/f.js" none
      = .ok ("x", none, ⟨"/f.js", "x", [], none⟩, ["p1"], [none]) := by rfl

/-- Collapsing a chain whose first non-versioned member is `m`: that member
decides the value (sentinel for empty `mappings`, null otherwise), whatever
the accumulated map. -/
theorem collapseChain_first_bad (combine : String → JSMap → JSMap → JSMap)
    (cf fn oc : String) (pfx rest : List JSMap) (m : JSMap)
    (hpfx : ∀ x ∈ pfx, x.hasVersion = true) (hm : m.hasVersion = false) :
    ∀ cm, collapseChain combine cf fn oc cm (pfx ++ m :: rest)
      = ((if m.mappings = "" then some sentinelMap else none), true) := by
  induction pfx with
  | nil =>
    intro cm
    by_cases hmm : m.mappings = "" <;> simp [collapseChain, hm, hmm]
  | cons x pfx ih =>
    intro cm
    have hx := hpfx x (List.mem_cons_self x pfx)
    simp only [List.cons_append, collapseChain, hx, Bool.not_true,
      Bool.false_eq_true, if_false, List.append_eq]
    rw [ih (fun y hy => hpfx y (List.mem_cons_of_mem x hy))]

/-- Collapsing a chain of versioned maps only is the left-to-right merge; an
assignment happens exactly when the chain is non-empty. -/
theorem collapseChain_all_versioned (combine : String → JSMap → JSMap → JSMap)
    (cf fn oc : String) :
    ∀ (chain : List JSMap), (∀ x ∈ chain, x.hasVersion = true) →
      ∀ cm, collapseChain combine cf fn oc cm chain
        = (mergeChainSpec combine cf fn oc cm chain, !chain.isEmpty) := by
  intro chain
  induction chain with
  | nil => intro _ cm; rfl
  | cons x chain ih =>
    intro hall cm
    have hx := hall x (List.mem_cons_self x chain)
    simp only [collapseChain, mergeChainSpec, hx, Bool.not_true,
      Bool.false_eq_true, if_false, List.isEmpty_cons, Bool.not_false]
    rw [ih (fun y hy => hall y (List.mem_cons_of_mem x hy))]

/-- Merging a non-trivial chain of maps always yields a map. -/
theorem mergeChainSpec_isSome (combine : String → JSMap → JSMap → JSMap)
    (cf fn oc : String) :
    ∀ (chain : List JSMap) (cm : Option JSMap),
      (cm.isSome = true ∨ chain ≠ []) →
      (mergeChainSpec combine cf fn oc cm chain).isSome = true := by
  intro chain
  induction chain with
  | nil =>
    intro cm h
    rcases h with h | h
    · exact h
    · exact absurd rfl h
  | cons x chain ih =>
    intro cm h
    simp only [mergeChainSpec]
    apply ih
    left
    cases cm <;> simp

/-- C4 (amended): when `_getCombinedSourcemap` collapses the chain, the FIRST
member that is not a versioned map decides the result — the sentinel
`\x7bmappings: ''\x7d` when its `mappings` are empty, null otherwise (even if the
sentinel occurs later in the chain); a sentinel result empties the chain,
while a null result empties it only when the stored combined map was non-null
(a stored null compares reference-equal to the new null, so the chain is
retained); when every member is versioned the maps are merged left-to-right
and, for a non-empty chain, the merged map is stored and the chain emptied. -/
theorem sourcemap_chain_collapse (ext : Externals) (ctx : TransformCtxState)
    (pfx rest : List JSMap) (m : JSMap) :
    ((∀ cm, ctx.combinedMap = some cm → cm.isSentinel = false) →
      ctx.sourcemapChain = pfx ++ m :: rest →
      (∀ x ∈ pfx, x.hasVersion = true) →
      m.hasVersion = false →
      ((m.mappings = "" →
          getCombinedSourcemapInternal ext ctx
            = ({ ctx with combinedMap := some sentinelMap, sourcemapChain := [] },
               some sentinelMap)) ∧
        (m.mappings ≠ "" →
          (ctx.combinedMap = none →
            getCombinedSourcemapInternal ext ctx = (ctx, none)) ∧
          (ctx.combinedMap.isSome = true →
            getCombinedSourcemapInternal ext ctx
              = ({ ctx with combinedMap := none, sourcemapChain := [] }, none))))) ∧
    ((∀ cm, ctx.combinedMap = some cm → cm.isSentinel = false) →
      (∀ x ∈ ctx.sourcemapChain, x.hasVersion = true) →
      getCombinedSourcemapInternal ext ctx
        = (if ctx.sourcemapChain.isEmpty then ctx
           else { ctx with
                    combinedMap := mergeChainSpec ext.combineSourcemaps
                      (ext.cleanUrl ctx.filename) ctx.filename ctx.originalCode
                      ctx.combinedMap ctx.sourcemapChain,
                    sourcemapChain := [] },
           mergeChainSpec ext.combineSourcemaps (ext.cleanUrl ctx.filename)
             ctx.filename ctx.originalCode ctx.combinedMap ctx.sourcemapChain)) := by
  constructor
  · intro hst hchain hpfx hm
    have hcol := collapseChain_first_bad ext.combineSourcemaps
      (ext.cleanUrl ctx.filename) ctx.filename ctx.originalCode pfx rest m hpfx hm
      ctx.combinedMap
    rw [← hchain] at hcol
    constructor
    · intro hmm
      rw [if_pos hmm] at hcol
      cases hcm : ctx.combinedMap with
      | none =>
        rw [hcm] at hcol
        simp only [getCombinedSourcemapInternal, hcm, hcol]
        simp
      | some cm =>
        have hsent := hst cm hcm
        rw [hcm] at hcol
        simp only [getCombinedSourcemapInternal, hcm, hsent, Bool.false_eq_true,
          if_false, hcol]
        simp
    · intro hmm
      rw [if_neg hmm] at hcol
      constructor
      · intro hcm
        rw [hcm] at hcol
        simp only [getCombinedSourcemapInternal, hcm, hcol]
        simp
      · intro hcms
        rcases Option.isSome_iff_exists.mp hcms with ⟨cm, hcm⟩
        have hsent := hst cm hcm
        rw [hcm] at hcol
        simp only [getCombinedSourcemapInternal, hcm, hsent, Bool.false_eq_true,
          if_false, hcol]
        simp
  · intro hst hall
    have hcol := collapseChain_all_versioned ext.combineSourcemaps
      (ext.cleanUrl ctx.filename) ctx.filename ctx.originalCode
      ctx.sourcemapChain hall ctx.combinedMap
    rcases hch : ctx.sourcemapChain with _ | ⟨y, ys⟩
    · rw [hch] at hcol
      cases hcm : ctx.combinedMap with
      | none =>
        rw [hcm] at hcol
        simp only [getCombinedSourcemapInternal, hcm, hch, hcol]
        simp [mergeChainSpec, hcm, hch]
      | some cm =>
        have hsent := hst cm hcm
        rw [hcm] at hcol
        simp only [getCombinedSourcemapInternal, hcm, hch, hsent,
          Bool.false_eq_true, if_false, hcol]
        simp [mergeChainSpec, hcm, hch]
    · have hsome : (mergeChainSpec ext.combineSourcemaps
          (ext.cleanUrl ctx.filename) ctx.filename ctx.originalCode
          ctx.combinedMap (y :: ys)).isSome = true := by
        apply mergeChainSpec_isSome
        right
        exact List.cons_ne_nil y ys
      rcases Option.isSome_iff_exists.mp hsome with ⟨v, hv⟩
      rw [hch] at hcol
      cases hcm : ctx.combinedMap with
      | none =>
        rw [hcm] at hcol
        rw [hcm] at hv
        simp only [getCombinedSourcemapInternal, hcm, hch, hcol, hv]
        simp
      | some cm =>
        have hsent := hst cm hcm
        rw [hcm] at hcol
        rw [hcm] at hv
        simp only [getCombinedSourcemapInternal, hcm, hch, hsent,
          Bool.false_eq_true, if_false, hcol, hv]
        simp

/-- C4 witness: a fresh context whose chain is a single sentinel member
collapses to the stored sentinel with an emptied chain; one whose chain is a
single invalid member collapses to null with the chain retained. -/
theorem sourcemap_chain_collapse_witness :
    getCombinedSourcemapInternal extId
        ⟨"/f.js", "x", [sentinelMap], none⟩
      = (⟨"/f.js", "x", [], some sentinelMap⟩, some sentinelMap) ∧
    getCombinedSourcemapInternal extId
        ⟨"/f.js", "x", [⟨false, "y", [], []⟩], none⟩
      = (⟨"/f.js", "x", [⟨false, "y", [], []⟩], none⟩, none) := by
  constructor
  · exact ((sourcemap_chain_collapse extId ⟨"/f.js", "x", [sentinelMap], none⟩
      [] [] sentinelMap).1 (fun cm hcm => Option.noConfusion hcm) rfl
      (fun x hx => absurd hx (List.not_mem_nil x)) rfl).1 rfl
  · exact (((sourcemap_chain_collapse extId
      ⟨"/f.js", "x", [⟨false, "y", [], []⟩], none⟩
      [] [] ⟨false, "y", [], []⟩).1 (fun cm hcm => Option.noConfusion hcm) rfl
      (fun x hx => absurd hx (List.not_mem_nil x)) rfl).2
      (by decide)).1 rfl

/-- C4 counterexample to the claim as stated: the chain holds an invalid
member followed by the sentinel, on a fresh context. The claim says the
combined map becomes the sentinel and the chain is emptied; actually the
first (invalid, non-sentinel) member wins — the combined map becomes null —
and, because the stored combined map was already null, the chain is NOT
emptied. -/
theorem sourcemap_chain_claim_counterexample :
    getCombinedSourcemapInternal extId
        ⟨"/f.js", "x", [⟨false, "y", [], []⟩, sentinelMap], none⟩
      = (⟨"/f.js", "x", [⟨false, "y", [], []⟩, sentinelMap], none⟩, none) := by
  rfl

/-- The collapse never changes `filename` or `originalCode`. -/
theorem getCombinedSourcemapInternal_preserves (ext : Externals)
    (ctx : TransformCtxState) :
    (getCombinedSourcemapInternal ext ctx).1.originalCode = ctx.originalCode ∧
      (getCombinedSourcemapInternal ext ctx).1.filename = ctx.filename := by
  unfold getCombinedSourcemapInternal
  cases hcm : ctx.combinedMap with
  | none =>
    dsimp only
    split <;> exact ⟨rfl, rfl⟩
  | some cm =>
    dsimp only
    split
    · exact ⟨rfl, rfl⟩
    · split <;> exact ⟨rfl, rfl⟩

/-- A non-empty code yields a non-empty schematic identity `mappings`. -/
theorem magicStringGenerateMap_mappings_ne (code source : String)
    (h : code ≠ "") : (magicStringGenerateMap code source).mappings ≠ "" := by
  intro hmk
  apply h
  have hlen : (List.replicate code.length 'A').length
      = List.length ([] : List Char) :=
    congrArg (fun s => s.data.length) hmk
  have hlen2 : code.length = 0 := by simpa using hlen
  cases hcode : code with
  | mk data =>
    cases data with
    | nil => rfl
    | cons c cs =>
      rw [hcode] at hlen2
      have hsucc : (String.mk (c :: cs)).length = cs.length + 1 := rfl
      rw [hsucc] at hlen2
      exact absurd hlen2 (Nat.succ_ne_zero _)

/-- C9 (amended): the public `getCombinedSourcemap` never returns null (its
result is always a map) nor the sentinel; when the internally combined map is
missing or the empty sentinel it substitutes the boundary-hires identity map
over the original code with embedded content, whose `mappings` are non-empty
for non-empty original code. (A versioned map whose `mappings` string is
empty is, however, returned as-is — the claim's unconditional non-emptiness
does not hold.) -/
theorem getCombinedSourcemap_public_fallback (ext : Externals)
    (ctx : TransformCtxState) :
    ((getCombinedSourcemapPublic ext ctx).2.isSentinel = false) ∧
      (((getCombinedSourcemapInternal ext ctx).2 = none ∨
        (∃ m, (getCombinedSourcemapInternal ext ctx).2 = some m ∧
          m.isSentinel = true)) →
        (getCombinedSourcemapPublic ext ctx).2
          = magicStringGenerateMap ctx.originalCode (ext.cleanUrl ctx.filename)) ∧
      (ctx.originalCode ≠ "" →
        ((getCombinedSourcemapInternal ext ctx).2 = none ∨
         (∃ m, (getCombinedSourcemapInternal ext ctx).2 = some m ∧
           m.isSentinel = true)) →
        (getCombinedSourcemapPublic ext ctx).2.mappings ≠ "") := by
  obtain ⟨hoc, hfn⟩ := getCombinedSourcemapInternal_preserves ext ctx
  have hfall : ((getCombinedSourcemapInternal ext ctx).2 = none ∨
      (∃ m, (getCombinedSourcemapInternal ext ctx).2 = some m ∧
        m.isSentinel = true)) →
      (getCombinedSourcemapPublic ext ctx).2
        = magicStringGenerateMap ctx.originalCode (ext.cleanUrl ctx.filename) := by
    intro hc
    rcases hc with hnone | ⟨mm, hsome, hsent⟩
    · simp only [getCombinedSourcemapPublic, hnone, hoc, hfn]
    · simp only [getCombinedSourcemapPublic, hsome, hsent, if_true, hoc, hfn]
  refine ⟨?_, hfall, fun hne hc => ?_⟩
  · cases hv : (getCombinedSourcemapInternal ext ctx).2 with
    | none =>
      rw [hfall (Or.inl hv)]
      rfl
    | some mm =>
      rcases Bool.eq_false_or_eq_true mm.isSentinel with hs | hs
      · rw [hfall (Or.inr ⟨mm, hv, hs⟩)]
        rfl
      · simp only [getCombinedSourcemapPublic, hv, hs, Bool.false_eq_true,
          if_false]
  · rw [hfall hc]
    exact magicStringGenerateMap_mappings_ne ctx.originalCode
      (ext.cleanUrl ctx.filename) hne

/-- C9 witness: the empty-chain fresh context falls back to the identity map
over `"x"`, whose mappings are non-empty. -/
theorem getCombinedSourcemap_public_fallback_witness :
    (getCombinedSourcemapPublic extId ⟨"/f.js", "x", [], none⟩).2
        = magicStringGenerateMap "x" "/f.js" ∧
      (getCombinedSourcemapPublic extId ⟨"/f.js", "x", [], none⟩).2.mappings ≠ "" := by
  have h := getCombinedSourcemap_public_fallback extId ⟨"/f.js", "x", [], none⟩
  exact ⟨h.2.1 (Or.inl rfl), h.2.2 (by decide) (Or.inl rfl)⟩

/-- C9 counterexample to the claim as stated: a plugin contributed a
versioned map with empty `mappings`; the public `getCombinedSourcemap`
returns it unchanged, so the returned map has empty `mappings` although the
original code `"x"` is non-empty. -/
theorem getCombinedSourcemap_public_empty_mappings_counterexample :
    (getCombinedSourcemapPublic extId
        ⟨"/f.js", "x", [⟨true, "", [some "/f.js"], [some "x"]⟩], none⟩).2
      = ⟨true, "", [some "/f.js"], [some "x"]⟩ ∧
    ("x" : String) ≠ "" ∧
    (⟨true, "", [some "/f.js"], [some "x"]⟩ : JSMap).mappings = "" := by
  exact ⟨rfl, by decide, rfl⟩

end Vite
